import Mathlib

/-!
Verification of the preCICE mesh and coupling-data layer
(`src/mesh/Mesh.cpp`, `src/cplscheme/CouplingData.hpp`) against its
natural-language specification.

Shallow embedding conventions:
* `double` coordinates and data values are modelled as `ℚ`; every operation
  verified here uses only `+ - * min max` and comparisons, which IEEE-754
  doubles compute exactly on the small integral inputs used in witnesses.
* C++ `int` ids are `Int`, sizes are `Nat`.
* `PRECICE_ASSERT` / `assertion` failures and `PRECICE_CHECK` errors abort
  the program; an aborting operation is modelled as `Option`/`Except`
  returning `none`/`.error` (no resulting state).
* The `utils::ManageUniqueIDs` id managers (not under `src/`) hand out
  dense ids `0, 1, 2, ...`; they are modelled as `Nat` counters, matching
  the spec sentence "edge and face ids are dense within the mesh".
-/

namespace Precice

/-- A mesh vertex (`mesh::Vertex`): coordinates, per-mesh id, global index,
owner flag, tagged flag and a normal vector. -/
structure Vertex where
  id : Int
  coords : List ℚ
  globalIndex : Int
  owner : Bool
  tagged : Bool
  normal : List ℚ
deriving DecidableEq, Repr, Inhabited

/-- A mesh edge (`mesh::Edge`): its two endpoint vertices and an id.
The C++ edge stores references into the mesh's vertex container; the
embedding stores the vertex values, and state updates key on vertex ids. -/
structure Edge where
  v0 : Vertex
  v1 : Vertex
  id : Int
deriving DecidableEq, Repr, Inhabited

/-- A mesh triangle (`mesh::Triangle`): three edges and an id. -/
structure Triangle where
  e0 : Edge
  e1 : Edge
  e2 : Edge
  id : Int
deriving DecidableEq, Repr, Inhabited

/-- A mesh quad (`mesh::Quad`): four edges and an id. -/
structure Quad where
  e0 : Edge
  e1 : Edge
  e2 : Edge
  e3 : Edge
  id : Int
deriving DecidableEq, Repr, Inhabited

/-- A data field (`mesh::Data`): name, globally unique id, dimension of one
value, and the flat value buffer. -/
structure Data where
  name : String
  id : Int
  dimensions : Nat
  values : List ℚ
deriving DecidableEq, Repr, Inhabited

/-- Modelled from the spec: `mesh::BoundingBox` is not under `src/`; the spec
says "axis-aligned min/max per dimension; supports expansion by vertex".
`none` is the freshly constructed (empty) box: in the source it holds
`(+huge, -huge)` per dimension, so the first expansion produces the point
box, exactly as `expandBy none` does here. -/
abbrev BoundingBox : Type := Option (List (ℚ × ℚ))

/-- Expansion of the min/max intervals of a box by one coordinate vector. -/
def expandIntervals (b : List (ℚ × ℚ)) (cs : List ℚ) : List (ℚ × ℚ) :=
  b.zipWith (fun pr c => (min pr.1 c, max pr.2 c)) cs

/-- Modelled from the spec: `BoundingBox::expandBy(vertex)`. -/
def expandBy (bb : BoundingBox) (cs : List ℚ) : BoundingBox :=
  match bb with
  | none => some (cs.map fun c => (c, c))
  | some b => some (expandIntervals b cs)

/-- The mesh (`mesh::Mesh`): named containers of vertices, edges, triangles,
quads and data fields, plus the id managers (modelled as counters) and the
cached bounding box. -/
structure Mesh where
  name : String
  dimensions : Int
  flipNormals : Bool
  id : Int
  vertices : List Vertex
  edges : List Edge
  triangles : List Triangle
  quads : List Quad
  data : List Data
  vertexIDCounter : Nat
  edgeIDCounter : Nat
  triangleIDCounter : Nat
  quadIDCounter : Nat
  boundingBox : BoundingBox
deriving DecidableEq, Repr, Inhabited

/-- `Mesh::Mesh(name, dimensions, flipNormals, id)`: asserts that the
dimensionality is 2 or 3 and that the name is nonempty; the containers start
empty and the bounding box is the empty box of `dimensions`. -/
def Mesh.make (name : String) (dimensions : Int) (flipNormals : Bool)
    (id : Int) : Option Mesh :=
  if (dimensions = 2 ∨ dimensions = 3) ∧ name ≠ "" then
    some { name := name, dimensions := dimensions, flipNormals := flipNormals,
           id := id, vertices := [], edges := [], triangles := [], quads := [],
           data := [], vertexIDCounter := 0, edgeIDCounter := 0,
           triangleIDCounter := 0, quadIDCounter := 0,
           boundingBox := (none : Option (List (ℚ × ℚ))) }
  else none

/-- Modelled from the spec: `Mesh::createVertex(coords)` is declared in
`Mesh.hpp`, which is not under `src/`; following the spec's vertex
description it appends a vertex carrying the coordinates and a fresh dense
id; global index, owner, tagged and normal start at their defaults. -/
def Mesh.createVertex (m : Mesh) (cs : List ℚ) : Mesh × Vertex :=
  let v : Vertex := { id := Int.ofNat m.vertexIDCounter, coords := cs,
                      globalIndex := -1, owner := false, tagged := false,
                      normal := [] }
  ({ m with vertices := m.vertices ++ [v],
            vertexIDCounter := m.vertexIDCounter + 1 }, v)

/-- `Mesh::createEdge(vertexOne, vertexTwo)`: appends an edge over the two
vertices with a fresh id from the edge id manager. -/
def Mesh.createEdge (m : Mesh) (va vb : Vertex) : Mesh × Edge :=
  let e : Edge := { v0 := va, v1 := vb, id := Int.ofNat m.edgeIDCounter }
  ({ m with edges := m.edges ++ [e], edgeIDCounter := m.edgeIDCounter + 1 }, e)

/-- The body of the lambda in `Mesh::createUniqueEdge`:
`std::is_permutation` of the two-element arrays `{vertexOne.id, vertexTwo.id}`
and `{e.vertex(0).id, e.vertex(1).id}`, i.e. multiset equality of the pairs. -/
def edgeHasVertexIDs (ida idb : Int) (e : Edge) : Bool :=
  (ida = e.v0.id ∧ idb = e.v1.id) ∨ (ida = e.v1.id ∧ idb = e.v0.id)

/-- `Mesh::createUniqueEdge(vertexOne, vertexTwo)`: returns the first
existing edge whose endpoint ids are a permutation of the given vertices'
ids; otherwise creates a new edge. -/
def Mesh.createUniqueEdge (m : Mesh) (va vb : Vertex) : Mesh × Edge :=
  match m.edges.find? (edgeHasVertexIDs va.id vb.id) with
  | some e => (m, e)
  | none => m.createEdge va vb

/-- Modelled from the spec: `Edge::connectedTo` is not under `src/`; two
edges are connected when they share a vertex (compared by vertex id). -/
def Edge.connectedTo (ea eb : Edge) : Bool :=
  ea.v0.id = eb.v0.id ∨ ea.v0.id = eb.v1.id ∨
  ea.v1.id = eb.v0.id ∨ ea.v1.id = eb.v1.id

/-- `Mesh::createTriangle(edgeOne, edgeTwo, edgeThree)`: `PRECICE_CHECK`s
that the edges are pairwise connected in the cycle one-two-three-one, then
appends a triangle over them with a fresh id. The check failure aborts with
the error message and leaves the mesh untouched. -/
def Mesh.createTriangle (m : Mesh) (ea eb ec : Edge) :
    Except String (Mesh × Triangle) :=
  if ea.connectedTo eb && eb.connectedTo ec && ec.connectedTo ea then
    let t : Triangle := { e0 := ea, e1 := eb, e2 := ec,
                          id := Int.ofNat m.triangleIDCounter }
    .ok ({ m with triangles := m.triangles ++ [t],
                  triangleIDCounter := m.triangleIDCounter + 1 }, t)
  else
    .error "Edges are not connected!"

/-- `Mesh::createQuad(edgeOne, ..., edgeFour)`: appends a quad with a fresh
id; no connectivity check is performed. -/
def Mesh.createQuad (m : Mesh) (ea eb ec ed : Edge) : Mesh × Quad :=
  let q : Quad := { e0 := ea, e1 := eb, e2 := ec, e3 := ed,
                    id := Int.ofNat m.quadIDCounter }
  ({ m with quads := m.quads ++ [q], quadIDCounter := m.quadIDCounter + 1 }, q)

/-- `Mesh::createData(name, dimension)`: `PRECICE_CHECK`s that no data field
of this mesh has the name already, then appends a field whose id is
`Data::getDataCount()`. The `Data` class is not under `src/`; modelled from
the spec ("Ids are globally unique across all data"), `getDataCount` is the
number of `Data` objects constructed so far, threaded here as `count`, and
constructing one increments it. -/
def Mesh.createData (m : Mesh) (count : Nat) (name : String)
    (dimension : Nat) : Except String (Mesh × Nat) :=
  if m.data.any (fun d => d.name = name) then
    .error "Data cannot be created twice!"
  else
    .ok ({ m with data := m.data ++
             [{ name := name, id := Int.ofNat count, dimensions := dimension,
                values := [] }] }, count + 1)

/-- `Mesh::allocateDataValues()`: for each data field, resizes the value
buffer to `|vertices| * dimensions` — truncating when too long (Eigen's
destructive `resize`; only the length matters to any observable claim) and
appending zeros (`utils::append` of `VectorXd::Zero`) when too short. Both
conditions compare against the buffer length before the call, as the source
does; they are mutually exclusive. -/
def Mesh.allocateDataValues (m : Mesh) : Mesh :=
  let expectedCount := m.vertices.length
  { m with data := m.data.map fun d =>
      let expectedSize := expectedCount * d.dimensions
      let actualSize := d.values.length
      let shrunk := if expectedSize < actualSize
                    then d.values.take expectedSize else d.values
      let grown := if expectedSize > actualSize
                   then shrunk ++ List.replicate (expectedSize - actualSize) 0
                   else shrunk
      { d with values := grown } }

/-- `Mesh::computeBoundingBox()`: folds `expandBy` over all vertices,
starting from the empty box, and stores the result. -/
def Mesh.computeBoundingBox (m : Mesh) : Mesh :=
  let bb := m.vertices.foldl (fun b v => expandBy b v.coords)
    (none : BoundingBox)
  { m with boundingBox := bb }

/-- `Mesh::clear()`: empties all element containers, resets the triangle,
edge and vertex id managers (the quad id manager is not reset in the
source), and resizes every data buffer to length 0. -/
def Mesh.clear (m : Mesh) : Mesh :=
  { m with quads := [], triangles := [], edges := [], vertices := [],
           triangleIDCounter := 0, edgeIDCounter := 0, vertexIDCounter := 0,
           data := m.data.map fun d => { d with values := [] } }

/-- Componentwise addition of normal vectors (`Eigen` vector `+`). -/
def vecAdd (a b : List ℚ) : List ℚ := a.zipWith (· + ·) b

/-- Accumulation into the normal of the vertex with the given id inside the
mesh's vertex container: this models the C++ mutation through the reference
`edge.vertex(i)` / `triangle.vertex(i)`, which aliases the container entry. -/
def addToVertexNormals (vs : List Vertex) (vid : Int) (w : List ℚ) :
    List Vertex :=
  vs.map fun v => if v.id = vid then { v with normal := vecAdd v.normal w }
                  else v

/-- Accumulation into the normal of the edge with the given id, modelling
mutation through the aliasing reference `triangle.edge(i)`. Edge normals
live in `Edge.cpp` (not under `src/`); only their accumulation pattern,
which is in `Mesh.cpp`, is modelled, so the embedding extends `Edge` with
the normal implicitly via this keyed store on a side list. -/
def addToEdgeNormals (ns : List (Int × List ℚ)) (eid : Int) (w : List ℚ) :
    List (Int × List ℚ) :=
  ns.map fun p => if p.1 = eid then (p.1, vecAdd p.2 w) else p

/-- One triangle step of `Mesh::computeState` (3D branch): assert the three
corner vertices pairwise distinct, compute the weighted normal, accumulate
it into the three edges and three corner vertices. The corner-vertex
function and the normal computation live in `Triangle.cpp` (not under
`src/`) and are taken as parameters. -/
def triangleStep (triNormal : Triangle → Bool → List ℚ)
    (triVertex : Triangle → Nat → Vertex) (flip : Bool)
    (st : List Vertex × List (Int × List ℚ)) (t : Triangle) :
    Option (List Vertex × List (Int × List ℚ)) :=
  if triVertex t 0 = triVertex t 1 ∨ triVertex t 1 = triVertex t 2 ∨
     triVertex t 2 = triVertex t 0 then none
  else
    let w := triNormal t flip
    let es := addToEdgeNormals (addToEdgeNormals
        (addToEdgeNormals st.2 t.e0.id w) t.e1.id w) t.e2.id w
    let vs := addToVertexNormals (addToVertexNormals (addToVertexNormals
        st.1 (triVertex t 0).id w) (triVertex t 1).id w) (triVertex t 2).id w
    some (vs, es)

/-- One quad step of `Mesh::computeState` (3D branch), analogous to
`triangleStep` with the cyclic distinctness asserts of the source. -/
def quadStep (quadNormal : Quad → Bool → List ℚ)
    (quadVertex : Quad → Nat → Vertex) (flip : Bool)
    (st : List Vertex × List (Int × List ℚ)) (q : Quad) :
    Option (List Vertex × List (Int × List ℚ)) :=
  if quadVertex q 0 = quadVertex q 1 ∨ quadVertex q 1 = quadVertex q 2 ∨
     quadVertex q 2 = quadVertex q 3 ∨ quadVertex q 3 = quadVertex q 0 then
    none
  else
    let w := quadNormal q flip
    let es := addToEdgeNormals (addToEdgeNormals (addToEdgeNormals
        (addToEdgeNormals st.2 q.e0.id w) q.e1.id w) q.e2.id w) q.e3.id w
    let vs := addToVertexNormals (addToVertexNormals (addToVertexNormals
        (addToVertexNormals st.1 (quadVertex q 0).id w)
        (quadVertex q 1).id w) (quadVertex q 2).id w) (quadVertex q 3).id w
    some (vs, es)

/-- Fold of an `Option`-valued step over a list (sequencing the asserts). -/
def foldSteps {σ α : Type} (f : σ → α → Option σ) : σ → List α → Option σ
  | st, [] => some st
  | st, a :: rest =>
    match f st a with
    | none => none
    | some st2 => foldSteps f st2 rest

/-- `Mesh::computeState()`: asserts dimensionality 2 or 3; returns early
when no faces provide normal information; in 2D accumulates edge normals
into vertices; in 3D accumulates triangle and quad normals into edges and
vertices and normalizes edge normals; finally normalizes vertex normals.
The numeric kernels (`Edge::computeNormal`, `Triangle::computeNormal`,
`Quad::computeNormal`, `Triangle::vertex`, `Quad::vertex`, `normalized()`)
live outside `src/` and are parameters; the statements proved below hold
for every choice of them. -/
def Mesh.computeState (edgeNormal : Edge → Bool → List ℚ)
    (triNormal : Triangle → Bool → List ℚ)
    (quadNormal : Quad → Bool → List ℚ)
    (triVertex : Triangle → Nat → Vertex)
    (quadVertex : Quad → Nat → Vertex)
    (normalize : List ℚ → List ℚ) (m : Mesh) : Option Mesh :=
  if ¬(m.dimensions = 2 ∨ m.dimensions = 3) then none
  else if m.dimensions = 2 ∧ m.edges.length = 0 then some m
  else if m.dimensions = 3 ∧ m.triangles.length + m.quads.length = 0 then
    some m
  else if m.dimensions = 2 then
    let vs := m.edges.foldl (fun vs e =>
        let w := edgeNormal e m.flipNormals
        addToVertexNormals (addToVertexNormals vs e.v0.id w) e.v1.id w)
      m.vertices
    some { m with vertices := vs.map fun v =>
             { v with normal := normalize v.normal } }
  else
    let edgeNs : List (Int × List ℚ) := m.edges.map fun e => (e.id, [])
    match foldSteps (triangleStep triNormal triVertex m.flipNormals)
        (m.vertices, edgeNs) m.triangles with
    | none => none
    | some st1 =>
      match foldSteps (quadStep quadNormal quadVertex m.flipNormals)
          st1 m.quads with
      | none => none
      | some st2 =>
        -- edge normals are normalized in 3D; they live in the side store,
        -- which is discarded since `Edge` carries no normal field here
        some { m with vertices := st2.1.map fun v =>
                 { v with normal := normalize v.normal } }

/-- Lookup in the `boost::container::flat_map` used by `Mesh::addMesh`;
insertion is modelled by prepending, so `find?` sees the newest binding,
matching `operator[]` overwrite semantics. -/
def mapFind {α : Type} (l : List (Int × α)) (k : Int) : Option α :=
  (l.find? fun p => p.1 = k).map fun p => p.2

/-- The vertex loop of `Mesh::addMesh`: for every vertex of the delta mesh,
create a vertex with the same coordinates, then set its global index, tag
it when the original is tagged, set its owner flag, assert the original id
is nonnegative, and record it in the vertex map. -/
def addVerticesLoop : Mesh → List (Int × Vertex) → List Vertex →
    Option (Mesh × List (Int × Vertex))
  | m, vm, [] => some (m, vm)
  | m, vm, v :: rest =>
    let p := m.createVertex v.coords
    -- setGlobalIndex / tag / setOwner on the reference returned by
    -- createVertex, i.e. on the entry just appended to the container
    let nv : Vertex := { p.2 with globalIndex := v.globalIndex,
                                  tagged := v.tagged, owner := v.owner }
    if v.id < 0 then none
    else addVerticesLoop { p.1 with vertices := m.vertices ++ [nv] }
           ((v.id, nv) :: vm) rest

/-- The edge loop of `Mesh::addMesh`: asserts both endpoint ids are in the
vertex map and creates the edge over the mapped (new) vertices. -/
def addEdgesLoop : Mesh → List (Int × Vertex) → List (Int × Edge) →
    List Edge → Option (Mesh × List (Int × Edge))
  | m, _, em, [] => some (m, em)
  | m, vm, em, e :: rest =>
    match mapFind vm e.v0.id, mapFind vm e.v1.id with
    | some a, some b =>
      let p := m.createEdge a b
      addEdgesLoop p.1 vm ((e.id, p.2) :: em) rest
    | _, _ => none

/-- The triangle loop of `Mesh::addMesh` (3D only): asserts the three edge
ids are in the edge map and calls `createTriangle` on the mapped edges. -/
def addTrianglesLoop : Mesh → List (Int × Edge) → List Triangle →
    Option Mesh
  | m, _, [] => some m
  | m, em, t :: rest =>
    match mapFind em t.e0.id, mapFind em t.e1.id, mapFind em t.e2.id with
    | some a, some b, some c =>
      match m.createTriangle a b c with
      | .ok (m2, _) => addTrianglesLoop m2 em rest
      | .error _ => none
    | _, _, _ => none

/-- `Mesh::addMesh(deltaMesh)`: asserts equal dimensionality, copies all
vertices (coordinates, global index, tagged flag, owner flag) and all edges
through id maps, and copies triangles only when the mesh is 3-dimensional.
Quads are never copied. The final `meshChanged` signal only clears the
rtree cache and has no mesh-state effect. -/
def Mesh.addMesh (m : Mesh) (delta : Mesh) : Option Mesh :=
  if m.dimensions = delta.dimensions then
    match addVerticesLoop m [] delta.vertices with
    | none => none
    | some (m1, vm) =>
      match addEdgesLoop m1 vm [] delta.edges with
      | none => none
      | some (m2, em) =>
        if m.dimensions = 3 then addTrianglesLoop m2 em delta.triangles
        else some m2
  else none

/-- `cplscheme::CouplingData` (`CouplingData.hpp`): raw pointers to the
live `values` and staged `newValues` buffers are modelled as
`Option (List ℚ)` (`none` is `NULL`); the `mesh::PtrMesh` shared pointer is
`Option Mesh` (`none` has `use_count() = 0`); `oldValues` is the history
matrix as a list of columns. The C++ field `initialize` is a Lean keyword
and is named `initFlag` here. -/
structure CouplingData where
  values : Option (List ℚ)
  newValues : Option (List ℚ)
  oldValues : List (List ℚ)
  mesh : Option Mesh
  initFlag : Bool
  dimension : Int

/-- The default constructor `CouplingData()`: its body is `assertion(false)`,
so it always aborts; no record is ever produced. -/
def CouplingData.mkDefault : Option CouplingData := none

/-- The four-argument constructor `CouplingData(values, mesh, initialize,
dimension)`: initializes `newValues` to the null pointer and `oldValues`
empty, then asserts `values != NULL` and `mesh.use_count() > 0`. -/
def CouplingData.construct (values : Option (List ℚ)) (mesh : Option Mesh)
    (ini : Bool) (dimension : Int) : Option CouplingData :=
  match values, mesh with
  | some v, some msh =>
    some { values := some v, newValues := none, oldValues := [],
           mesh := some msh, initFlag := ini, dimension := dimension }
  | _, _ => none

/-- Modelled from the spec: the registry `swap()` operation of §4.5 is not
under `src/` (only the `CouplingData` record is). The spec's words: "rotate
`newValues`→`values`, append previous `values` as a new column of
`oldValues`, truncate history". Rotation exchanges the two buffers —
`newValues` becomes `values` and the previous `values` buffer becomes the
staging buffer — and the previous `values` contents are pushed as the new
first history column (the spec: "previous iteration (1st col)"), truncated
to the configured history capacity. -/
def swapCouplingBuffers (capacity : Nat) (cd : CouplingData) : CouplingData :=
  { cd with values := cd.newValues, newValues := cd.values,
            oldValues :=
              ((cd.values.getD []) :: cd.oldValues).take capacity }

/-!
`Mesh::computeQuadConvexityFromPoints` (`Mesh.cpp:494`). The function reads
the coordinates of the four vertices at positions `vertexIDs[0..3]` of the
vertex container as 3D points, projects them into the (skewed) plane basis
`e_1, e_2` spanned by the first three, runs a gift-wrapping scan from the
point of smallest projected x, writes the hull sequence into `vertexIDs`
in place, and returns whether the hull closed after exactly 4 points.
`double` arithmetic is `ℚ` here; on the integral witness inputs below all
intermediate doubles are exact.
-/

/-- 3D vector difference. -/
def vsub3 (a b : ℚ × ℚ × ℚ) : ℚ × ℚ × ℚ :=
  (a.1 - b.1, a.2.1 - b.2.1, a.2.2 - b.2.2)

/-- 3D cross product (`Eigen::Vector3d::cross`). -/
def cross3 (a b : ℚ × ℚ × ℚ) : ℚ × ℚ × ℚ :=
  (a.2.1 * b.2.2 - a.2.2 * b.2.1,
   a.2.2 * b.1 - a.1 * b.2.2,
   a.1 * b.2.1 - a.2.1 * b.1)

/-- 3D dot product (`Eigen::Vector3d::dot`). -/
def dot3 (a b : ℚ × ℚ × ℚ) : ℚ :=
  a.1 * b.1 + a.2.1 * b.2.1 + a.2.2 * b.2.2

/-- The coordinates of the vertex at a container position, read as a 3D
point (`vertices()[id].getCoords()` assigned to an `Eigen::Vector3d`). -/
def Mesh.coords3At (m : Mesh) (id : Int) : ℚ × ℚ × ℚ :=
  match (m.vertices.getD id.toNat default).coords with
  | x :: y :: z :: _ => (x, y, z)
  | [x, y] => (x, y, 0)
  | [x] => (x, 0, 0)
  | [] => (0, 0, 0)

/-- Projected x coordinate of point `i` (`coords[i][0]`). -/
def projX (cs : List (ℚ × ℚ × ℚ)) (i : Nat) : ℚ :=
  (cs.getD i default).1

/-- Projected y coordinate of point `i` (`coords[i][1]`). -/
def projY (cs : List (ℚ × ℚ × ℚ)) (i : Nat) : ℚ :=
  (cs.getD i default).2.1

/-- One test of the inner `for` loop of the gift-wrapping scan: replace the
candidate `nv` by `i` when `i` lies strictly counter-clockwise of the
current-to-candidate direction (`val > 0`). -/
def ccwUpdate (cs : List (ℚ × ℚ × ℚ)) (current nv i : Nat) : Nat :=
  let y1 := projY cs current - projY cs nv
  let y2 := projY cs current - projY cs i
  let x1 := projX cs current - projX cs nv
  let x2 := projX cs current - projX cs i
  if y2 * x1 - y1 * x2 > 0 then i else nv

/-- The full inner `for` loop: starting from `(current + 1) % 4`, scan
`i = 0, 1, 2, 3`. -/
def mostCCW (cs : List (ℚ × ℚ × ℚ)) (current : Nat) : Nat :=
  ccwUpdate cs current
    (ccwUpdate cs current
      (ccwUpdate cs current
        (ccwUpdate cs current ((current + 1) % 4) 0) 1) 2) 3

/-- The `do … while (currentVertex != idLowestPoint)` hull loop. Each pass
writes `currentVertex` at position `counter` of the id array (`List.set`
ignores out-of-range writes, which are undefined behavior in the source
once more than four hull points are visited), advances to the most
counter-clockwise point and increments the counter. The source loop can
fail to terminate on degenerate inputs; `fuel` bounds the recursion and is
never exhausted on the inputs evaluated here. -/
def hullLoop (cs : List (ℚ × ℚ × ℚ)) (start : Nat) :
    Nat → List Int → Nat → Nat → List Int × Nat
  | 0, arr, counter, _ => (arr, counter)
  | fuel + 1, arr, counter, current =>
    let arr2 := arr.set counter (Int.ofNat current)
    let nxt := mostCCW cs current
    if nxt = start then (arr2, counter + 1)
    else hullLoop cs start fuel arr2 (counter + 1) nxt

/-- Index of the point with the smallest projected x coordinate
(strict `<` scan over `i = 1, 2, 3` starting from 0). -/
def lowestX (cs : List (ℚ × ℚ × ℚ)) : Nat :=
  let step := fun idLow i => if projX cs i < projX cs idLow then i else idLow
  step (step (step 0 1) 2) 3

/-- `Mesh::computeQuadConvexityFromPoints(vertexIDs)`: returns the `bool`
result together with the in-place-updated id array. -/
def Mesh.computeQuadConvexityFromPoints (m : Mesh) (vertexIDs : List Int) :
    Bool × List Int :=
  let pt := fun i => m.coords3At (vertexIDs.getD i 0)
  let e1 := vsub3 (pt 1) (pt 0)
  let e2 := vsub3 (pt 2) (pt 0)
  let normalVector := cross3 e1 e2
  let cs := (List.range 4).map fun i =>
    let d := vsub3 (pt i) (pt 0)
    (dot3 e1 d, dot3 e2 d, dot3 normalVector d)
  let idLowestPoint := lowestX cs
  let r := hullLoop cs idLowestPoint 8 vertexIDs 0 idLowestPoint
  (r.2 = 4, r.1)

/-! Global-data-counter world model for the data-id uniqueness claim. -/

/-- The global state relevant to `Mesh::createData`: the meshes of the
program and the static `Data::_dataCount` counter. -/
structure DataWorld where
  meshes : List Mesh
  dataCount : Nat

/-- One `createData` request: which mesh it is called on and the
arguments. -/
structure CreateReq where
  meshIdx : Nat
  name : String
  dimension : Nat

/-- One `Mesh::createData` call against the world: a call on a missing mesh
or a call aborted by the duplicate-name `PRECICE_CHECK` leaves the world
unchanged; a successful call updates the mesh and the global counter. -/
def stepCreate (w : DataWorld) (r : CreateReq) : DataWorld :=
  match w.meshes[r.meshIdx]? with
  | none => w
  | some m =>
    match m.createData w.dataCount r.name r.dimension with
    | .error _ => w
    | .ok (m2, c2) => { meshes := w.meshes.set r.meshIdx m2, dataCount := c2 }

/-- A sequence of `createData` calls. -/
def runCreates (w : DataWorld) (rs : List CreateReq) : DataWorld :=
  rs.foldl stepCreate w

/-- The ids of every data field of one mesh. -/
def Mesh.dataIDs (m : Mesh) : List Int := m.data.map Data.id

/-- The ids of every data field of every mesh of the world. -/
def allDataIDs (w : DataWorld) : List Int :=
  (w.meshes.map Mesh.dataIDs).flatten

/-- Containment of a coordinate vector in the min/max intervals of a
bounding box, per dimension. -/
def inBox (b : List (ℚ × ℚ)) (cs : List ℚ) : Prop :=
  ∀ i, i < b.length →
    (b.getD i default).1 ≤ cs.getD i 0 ∧ cs.getD i 0 ≤ (b.getD i default).2

/-! Concrete fixtures used by the witnesses below. -/

/-- A vertex literal with default global index, flags and normal. -/
def mkVert (id : Int) (x y z : ℚ) : Vertex :=
  { id := id, coords := [x, y, z], globalIndex := -1, owner := false,
    tagged := false, normal := [] }

def vA : Vertex := mkVert 0 0 0 0
def vB : Vertex := mkVert 1 1 0 0
def vC : Vertex := mkVert 2 0 1 0
def vD : Vertex := mkVert 3 1 1 0
def eAB : Edge := { v0 := vA, v1 := vB, id := 0 }
def eBC : Edge := { v0 := vB, v1 := vC, id := 1 }
def eCA : Edge := { v0 := vC, v1 := vA, id := 2 }
def eCD : Edge := { v0 := vC, v1 := vD, id := 3 }

/-- A 3-dimensional mesh holding the four sample vertices and edges. -/
def sampleMesh3 : Mesh :=
  { name := "m", dimensions := 3, flipNormals := false, id := 7,
    vertices := [vA, vB, vC, vD], edges := [eAB, eBC, eCA, eCD],
    triangles := [], quads := [], data := [],
    vertexIDCounter := 4, edgeIDCounter := 4, triangleIDCounter := 0,
    quadIDCounter := 0, boundingBox := (none : BoundingBox) }

/-- A 3D mesh whose positions 1–4 hold a planar unit square, position 0 a
spare point: the input for the quad-convexity evaluation. -/
def quadMesh : Mesh :=
  { name := "q", dimensions := 3, flipNormals := false, id := 0,
    vertices := [mkVert 0 5 5 0, mkVert 1 0 0 0, mkVert 2 1 0 0,
                 mkVert 3 1 1 0, mkVert 4 0 1 0],
    edges := [], triangles := [], quads := [], data := [],
    vertexIDCounter := 5, edgeIDCounter := 0, triangleIDCounter := 0,
    quadIDCounter := 0, boundingBox := (none : BoundingBox) }

/-- A sample coupling-data record with two history columns. -/
def sampleCD : CouplingData :=
  { values := some [1, 2], newValues := some [3, 4],
    oldValues := [[5, 6], [7, 8]], mesh := (none : Option Mesh),
    initFlag := false, dimension := 1 }

/-- The triangle created over `eAB, eBC, eCA` in `sampleMesh3`. -/
def triNew : Triangle := { e0 := eAB, e1 := eBC, e2 := eCA, id := 0 }

/-- `sampleMesh3` after the successful `createTriangle` call. -/
def triMesh : Mesh :=
  { sampleMesh3 with triangles := [triNew], triangleIDCounter := 1 }

/-- A 2-dimensional mesh with vertices but no edges: `computeState`
returns early on it. -/
def sampleMesh2 : Mesh :=
  { name := "p", dimensions := 2, flipNormals := false, id := 1,
    vertices := [{ id := 0, coords := [0, 0], globalIndex := -1,
                   owner := false, tagged := false, normal := [] }],
    edges := [], triangles := [], quads := [], data := [],
    vertexIDCounter := 1, edgeIDCounter := 0, triangleIDCounter := 0,
    quadIDCounter := 0, boundingBox := (none : BoundingBox) }

/-- The mesh produced by `Mesh.make "a" 2 false 0`. -/
def madeMesh : Mesh := (Mesh.make "a" 2 false 0).getD default

/-- An initial world holding `sampleMesh3` (which has no data) and data
counter 0. -/
def world0 : DataWorld := { meshes := [sampleMesh3], dataCount := 0 }

/-- Two `createData` requests against mesh 0 of `world0`. -/
def reqs0 : List CreateReq :=
  [{ meshIdx := 0, name := "a", dimension := 1 },
   { meshIdx := 0, name := "b", dimension := 3 }]

/-- The bounding box computed for `sampleMesh3`. -/
def bbSample : List (ℚ × ℚ) :=
  ((sampleMesh3.computeBoundingBox).boundingBox).getD []

/-- A quad living in the receiving mesh of the `addMesh` witness. -/
def qOld : Quad := { e0 := eAB, e1 := eBC, e2 := eCA, e3 := eCD, id := 0 }

/-- The receiving mesh of the `addMesh` witness: 3D, one quad, empty
otherwise. -/
def addBase : Mesh :=
  { name := "b", dimensions := 3, flipNormals := false, id := 2,
    vertices := [], edges := [], triangles := [], quads := [qOld],
    data := [], vertexIDCounter := 0, edgeIDCounter := 0,
    triangleIDCounter := 0, quadIDCounter := 1,
    boundingBox := (none : BoundingBox) }

/-- The delta mesh of the `addMesh` witness: three vertices, three edges,
one triangle and one quad (the quad must not be copied). -/
def addDelta : Mesh :=
  { name := "d", dimensions := 3, flipNormals := false, id := 3,
    vertices := [vA, vB, vC], edges := [eAB, eBC, eCA],
    triangles := [{ e0 := eAB, e1 := eBC, e2 := eCA, id := 0 }],
    quads := [{ e0 := eAB, e1 := eAB, e2 := eAB, e3 := eAB, id := 5 }],
    data := [], vertexIDCounter := 3, edgeIDCounter := 3,
    triangleIDCounter := 1, quadIDCounter := 6,
    boundingBox := (none : BoundingBox) }

/-- The mesh produced by `addBase.addMesh addDelta`. -/
def addResult : Mesh := (addBase.addMesh addDelta).getD default

/-- The mesh produced by a successful `createData` call on `sampleMesh3`. -/
def dataMesh : Mesh :=
  ((sampleMesh3.createData 0 "a" 1).toOption.getD (default, 0)).1

/-- `sampleMesh3` (4 vertices) carrying a 2-component data field whose
buffer has the wrong length 5 before allocation. -/
def allocMesh : Mesh :=
  { sampleMesh3 with
    data := [{ name := "f", id := 0, dimensions := 2,
               values := [1, 2, 3, 4, 5] }] }

/-- The data field of `allocMesh` after `allocateDataValues`. -/
def dAlloc : Data := ((allocMesh.allocateDataValues).data).getD 0 default

/-! ## C1 — `allocateDataValues` resizes every buffer to `|vertices| × dim` -/

/-- C1: after `Mesh::allocateDataValues`, every data field of the mesh has a
value buffer of length `|vertices| × dimension`, whatever length the buffer
had before the call. -/
theorem allocateDataValues_buffer_sizes (m : Mesh) :
    ∀ d ∈ (m.allocateDataValues).data,
      d.values.length = m.vertices.length * d.dimensions := by
  intro d hd
  simp only [Mesh.allocateDataValues, List.mem_map] at hd
  obtain ⟨d0, _, rfl⟩ := hd
  by_cases h1 : m.vertices.length * d0.dimensions < d0.values.length
  · have h2 : ¬ m.vertices.length * d0.dimensions > d0.values.length := by
      omega
    simp only [h1, h2, if_true, if_false, List.length_take]
    omega
  · by_cases h2 : m.vertices.length * d0.dimensions > d0.values.length
    · simp only [h1, h2, if_true, if_false, List.length_append,
        List.length_replicate]
      omega
    · simp only [h1, h2, if_false]
      omega

/-- Witness for C1: a 2-component field with 5 stale values on a 4-vertex
mesh is resized to 8 values. -/
theorem allocateDataValues_buffer_sizes_witness :
    dAlloc ∈ (allocMesh.allocateDataValues).data ∧
    dAlloc.values.length = allocMesh.vertices.length * dAlloc.dimensions :=
  ⟨by decide,
   allocateDataValues_buffer_sizes allocMesh dAlloc (by decide)⟩

/-! ## C4 — `CouplingData` constructor assertions -/

/-- C4: default-constructing a `CouplingData` always fails its
`assertion(false)` and never yields a record, while the four-argument
constructor succeeds exactly when the values pointer is non-`NULL` and the
mesh shared pointer is non-null. -/
theorem couplingData_constructor_asserts :
    CouplingData.mkDefault = (none : Option CouplingData) ∧
    ∀ v msh ini dim, (CouplingData.construct v msh ini dim).isSome =
      (v.isSome && msh.isSome) := by
  refine ⟨rfl, ?_⟩
  intro v msh ini dim
  cases v <;> cases msh <;> rfl

/-! ## C7 — `swap` twice restores `values` -/

/-- C7: for a coupling-data record whose `oldValues` history has at least
two columns, performing the registry `swap` operation twice restores the
`values` buffer bit-exactly. -/
theorem swap_swap_restores_values (capacity : Nat) (cd : CouplingData)
    (_h : 2 ≤ cd.oldValues.length) :
    (swapCouplingBuffers capacity (swapCouplingBuffers capacity cd)).values
      = cd.values := rfl

/-- Witness for C7 at a concrete record with two history columns. -/
theorem swap_swap_restores_values_witness :
    2 ≤ sampleCD.oldValues.length ∧
    (swapCouplingBuffers 2 (swapCouplingBuffers 2 sampleCD)).values
      = sampleCD.values :=
  ⟨by decide, swap_swap_restores_values 2 sampleCD (by decide)⟩

/-! ## C8 — `createTriangle` checks edge connectivity -/

/-- C8: `Mesh::createTriangle` aborts with "Edges are not connected!"
unless the edges are pairwise connected in the cycle one–two–three–one (on
the abort no mesh state is produced, so the triangle container is
unchanged); when the check holds, exactly one triangle over the three edges
is appended, carrying the id-manager's fresh id, which differs from every
existing triangle id whenever those are below the counter. -/
theorem createTriangle_connectivity (m : Mesh) (ea eb ec : Edge) :
    (¬ (ea.connectedTo eb && eb.connectedTo ec && ec.connectedTo ea) = true →
      m.createTriangle ea eb ec = .error "Edges are not connected!") ∧
    (∀ m2 t, m.createTriangle ea eb ec = .ok (m2, t) →
      (ea.connectedTo eb && eb.connectedTo ec && ec.connectedTo ea) = true ∧
      m2.triangles = m.triangles ++ [t] ∧
      t.e0 = ea ∧ t.e1 = eb ∧ t.e2 = ec ∧
      t.id = Int.ofNat m.triangleIDCounter ∧
      ((∀ t2 ∈ m.triangles, t2.id < Int.ofNat m.triangleIDCounter) →
        ∀ t2 ∈ m.triangles, t2.id ≠ t.id)) := by
  by_cases h : (ea.connectedTo eb && eb.connectedTo ec &&
      ec.connectedTo ea) = true
  · refine ⟨fun hc => absurd h hc, ?_⟩
    intro m2 t hok
    rw [Mesh.createTriangle, if_pos h] at hok
    injection hok with hpair
    injection hpair with hm ht
    subst hm
    subst ht
    refine ⟨h, rfl, rfl, rfl, rfl, rfl, ?_⟩
    intro hlt t2 ht2 heq
    exact absurd (heq ▸ hlt t2 ht2) (lt_irrefl _)
  · refine ⟨fun _ => ?_, ?_⟩
    · rw [Mesh.createTriangle, if_neg h]
    · intro m2 t hok
      rw [Mesh.createTriangle, if_neg h] at hok
      exact absurd hok (by simp)

/-- Witness for C8: a disconnected triple aborts, a connected triple
appends exactly one triangle. -/
theorem createTriangle_connectivity_witness :
    sampleMesh3.createTriangle eAB eCD eCA
      = .error "Edges are not connected!" ∧
    triMesh.triangles = sampleMesh3.triangles ++ [triNew] :=
  ⟨(createTriangle_connectivity sampleMesh3 eAB eCD eCA).1 (by decide),
   (((createTriangle_connectivity sampleMesh3 eAB eBC eCA).2
      triMesh triNew rfl).2).1⟩

/-! ## C2 — quad convexity routine and the id array -/

/-- C2 (failing-input evaluation): on `quadMesh`, whose container positions
1–4 hold a planar convex unit square, the routine returns `true` but
overwrites the id array `[1, 2, 3, 4]` with `[0, 3, 2, 1]` — the positions
of the hull points within the four given points, not the mesh vertex ids:
the output is not a permutation of the input ids (it contains `0`). -/
theorem computeQuadConvexity_overwrites_ids :
    quadMesh.computeQuadConvexityFromPoints [1, 2, 3, 4]
      = (true, [0, 3, 2, 1]) ∧
    ¬ List.Perm ([0, 3, 2, 1] : List Int) [1, 2, 3, 4] := by
  exact ⟨by decide!, by decide⟩

/-! ## C9 — `createUniqueEdge` deduplicates edges -/

/-- C9: `Mesh::createUniqueEdge` returns an edge whose endpoint ids are a
permutation of the given pair's ids; when a matching edge already exists the
mesh is returned unchanged together with that edge, otherwise exactly one
new edge is appended; a second call with the same pair returns the same
mesh and the same edge. -/
theorem createUniqueEdge_spec (m : Mesh) (va vb : Vertex) :
    (((m.createUniqueEdge va vb).2.v0.id = va.id ∧
      (m.createUniqueEdge va vb).2.v1.id = vb.id) ∨
     ((m.createUniqueEdge va vb).2.v0.id = vb.id ∧
      (m.createUniqueEdge va vb).2.v1.id = va.id)) ∧
    ((∃ e, e ∈ m.edges ∧ edgeHasVertexIDs va.id vb.id e = true) →
      (m.createUniqueEdge va vb).1 = m) ∧
    ((∀ e ∈ m.edges, ¬ edgeHasVertexIDs va.id vb.id e = true) →
      (m.createUniqueEdge va vb).1.edges
        = m.edges ++ [(m.createUniqueEdge va vb).2]) ∧
    ((m.createUniqueEdge va vb).1.createUniqueEdge va vb)
      = ((m.createUniqueEdge va vb).1, (m.createUniqueEdge va vb).2) := by
  rcases hfind : m.edges.find? (edgeHasVertexIDs va.id vb.id) with _ | e
  · have hnone : ∀ e ∈ m.edges, ¬ edgeHasVertexIDs va.id vb.id e = true :=
      List.find?_eq_none.mp hfind
    have hr : m.createUniqueEdge va vb
        = ({ m with
             edges := m.edges ++
               [{ v0 := va, v1 := vb, id := Int.ofNat m.edgeIDCounter }],
             edgeIDCounter := m.edgeIDCounter + 1 },
           { v0 := va, v1 := vb, id := Int.ofNat m.edgeIDCounter }) := by
      rw [Mesh.createUniqueEdge, hfind]
      rfl
    refine ⟨?_, ?_, ?_, ?_⟩
    · rw [hr]
      exact Or.inl ⟨rfl, rfl⟩
    · rintro ⟨e, he, hpe⟩
      exact absurd hpe (hnone e he)
    · intro _
      rw [hr]
    · have hnew : edgeHasVertexIDs va.id vb.id
          { v0 := va, v1 := vb, id := Int.ofNat m.edgeIDCounter } = true := by
        simp [edgeHasVertexIDs]
      have hfind2 : (m.edges ++
          [({ v0 := va, v1 := vb, id := Int.ofNat m.edgeIDCounter } : Edge)]).find?
            (edgeHasVertexIDs va.id vb.id)
          = some { v0 := va, v1 := vb, id := Int.ofNat m.edgeIDCounter } := by
        rw [List.find?_append, hfind, List.find?_cons_of_pos [] hnew]
        rfl
      rw [hr]
      rw [Mesh.createUniqueEdge]
      simp only [hfind2]
  · have hpe : edgeHasVertexIDs va.id vb.id e = true := List.find?_some hfind
    have hr : m.createUniqueEdge va vb = (m, e) := by
      rw [Mesh.createUniqueEdge, hfind]
    refine ⟨?_, ?_, ?_, ?_⟩
    · rw [hr]
      have := of_decide_eq_true hpe
      tauto
    · intro _
      rw [hr]
    · intro hall
      exact absurd hpe (hall e (List.mem_of_find?_eq_some hfind))
    · rw [hr, Mesh.createUniqueEdge, hfind]

/-- Witness for C9: one call on a pair with no matching edge appends the
new edge; one call on a pair with an existing edge leaves the mesh as is. -/
theorem createUniqueEdge_spec_witness :
    (sampleMesh3.createUniqueEdge vA vD).1.edges
      = sampleMesh3.edges ++ [(sampleMesh3.createUniqueEdge vA vD).2] ∧
    (sampleMesh3.createUniqueEdge vB vA).1 = sampleMesh3 :=
  ⟨((createUniqueEdge_spec sampleMesh3 vA vD).2.2).1 (by decide),
   ((createUniqueEdge_spec sampleMesh3 vB vA).2.1)
     ⟨eAB, by decide, by decide⟩⟩

/-! ## C6 — the computed bounding box contains every vertex -/

theorem expandIntervals_length (b : List (ℚ × ℚ)) (cs : List ℚ) :
    (expandIntervals b cs).length = min b.length cs.length := by
  simp [expandIntervals]

theorem inBox_expandIntervals_self (b : List (ℚ × ℚ)) (cs : List ℚ) :
    inBox (expandIntervals b cs) cs := by
  intro i hi
  have hi2 := hi
  rw [expandIntervals_length] at hi2
  have hib : i < b.length := lt_of_lt_of_le hi2 (min_le_left _ _)
  have hic : i < cs.length := lt_of_lt_of_le hi2 (min_le_right _ _)
  rw [List.getD_eq_getElem _ _ hi, List.getD_eq_getElem _ _ hic]
  simp only [expandIntervals, List.getElem_zipWith]
  exact ⟨min_le_right _ _, le_max_right _ _⟩

theorem inBox_expandIntervals_mono (b : List (ℚ × ℚ)) (cs cs2 : List ℚ)
    (h : inBox b cs) : inBox (expandIntervals b cs2) cs := by
  intro i hi
  have hi2 := hi
  rw [expandIntervals_length] at hi2
  have hib : i < b.length := lt_of_lt_of_le hi2 (min_le_left _ _)
  have hb := h i hib
  rw [List.getD_eq_getElem _ _ hi]
  rw [List.getD_eq_getElem _ _ hib] at hb
  simp only [expandIntervals, List.getElem_zipWith]
  exact ⟨le_trans (min_le_left _ _) hb.1, le_trans hb.2 (le_max_left _ _)⟩

theorem inBox_point (cs : List ℚ) :
    inBox (cs.map fun c => (c, c)) cs := by
  intro i hi
  have hic : i < cs.length := by
    simpa using hi
  rw [List.getD_eq_getElem _ _ hi, List.getD_eq_getElem _ _ hic]
  rw [List.getElem_map]
  exact ⟨le_refl _, le_refl _⟩

theorem bbFold_some (vs : List Vertex) : ∀ b : List (ℚ × ℚ),
    ∃ b2, vs.foldl (fun bb v => expandBy bb v.coords) (some b) = some b2 ∧
      (∀ cs, inBox b cs → inBox b2 cs) ∧ (∀ v ∈ vs, inBox b2 v.coords) := by
  induction vs with
  | nil => exact fun b => ⟨b, rfl, fun _ h => h, by simp⟩
  | cons v vs ih =>
    intro b
    obtain ⟨b2, heq, hmono, hall⟩ := ih (expandIntervals b v.coords)
    refine ⟨b2, ?_, ?_, ?_⟩
    · rw [List.foldl_cons]
      exact heq
    · exact fun cs h => hmono cs (inBox_expandIntervals_mono b cs v.coords h)
    · intro w hw
      rcases List.mem_cons.mp hw with hv | hvs
      · subst hv
        exact hmono w.coords (inBox_expandIntervals_self b w.coords)
      · exact hall w hvs

/-- C6: after `Mesh::computeBoundingBox`, the stored bounding box contains
every vertex of the mesh: in each dimension the box minimum is at most the
vertex coordinate and the box maximum is at least it. -/
theorem computeBoundingBox_contains (m : Mesh) (bb : List (ℚ × ℚ))
    (h : (m.computeBoundingBox).boundingBox = some bb) :
    ∀ v ∈ m.vertices, inBox bb v.coords := by
  simp only [Mesh.computeBoundingBox] at h
  rcases hv : m.vertices with _ | ⟨v, vs⟩
  · rw [hv] at h
    cases h
  · rw [hv] at h
    rw [List.foldl_cons] at h
    obtain ⟨b2, heq, hmono, hall⟩ :=
      bbFold_some vs (v.coords.map fun c => (c, c))
    rw [show expandBy (none : BoundingBox) v.coords
          = some (v.coords.map fun c => (c, c)) from rfl, heq] at h
    injection h with hbb
    subst hbb
    intro w hw
    rcases List.mem_cons.mp hw with h1 | h2
    · subst h1
      exact hmono w.coords (inBox_point w.coords)
    · exact hall w h2

/-- Witness for C6: the box computed for `sampleMesh3` bounds the first
coordinate of its first vertex. -/
theorem computeBoundingBox_contains_witness :
    (bbSample.getD 0 default).1 ≤ vA.coords.getD 0 0 ∧
    vA.coords.getD 0 0 ≤ (bbSample.getD 0 default).2 :=
  computeBoundingBox_contains sampleMesh3 bbSample rfl vA (by decide) 0
    (by decide)

/-! ## C3 — data ids are globally unique -/

theorem flatten_set_perm (L : List (List Int)) : ∀ (i : Nat) (l : List Int)
    (x : Int), L[i]? = some l →
    List.Perm ((L.set i (l ++ [x])).flatten) (x :: L.flatten) := by
  induction L with
  | nil => intro i l x h; cases h
  | cons hd tl ih =>
    intro i l x h
    cases i with
    | zero =>
      rw [List.getElem?_cons_zero] at h
      injection h with h0
      subst h0
      simp only [List.set_cons_zero, List.flatten_cons, List.append_assoc]
      exact List.perm_middle
    | succ n =>
      have h2 : tl[n]? = some l := by rwa [List.getElem?_cons_succ] at h
      simp only [List.set_cons_succ, List.flatten_cons]
      exact ((ih n l x h2).append_left hd).trans List.perm_middle

theorem createData_ok (m : Mesh) (count : Nat) (name : String) (dim : Nat)
    (m2 : Mesh) (c2 : Nat)
    (h : m.createData count name dim = .ok (m2, c2)) :
    m2.data = m.data ++ [{ name := name, id := Int.ofNat count,
                           dimensions := dim, values := [] }] ∧
    c2 = count + 1 ∧ m2.dimensions = m.dimensions := by
  rw [Mesh.createData] at h
  split at h
  · cases h
  · injection h with hp
    injection hp with h1 h2
    subst h1
    subst h2
    exact ⟨rfl, rfl, rfl⟩

theorem stepCreate_inv (w : DataWorld) (r : CreateReq)
    (h1 : ∀ i ∈ allDataIDs w, i < (w.dataCount : Int))
    (h2 : (allDataIDs w).Nodup) :
    (∀ i ∈ allDataIDs (stepCreate w r),
      i < ((stepCreate w r).dataCount : Int)) ∧
    (allDataIDs (stepCreate w r)).Nodup := by
  rcases hm : w.meshes[r.meshIdx]? with _ | m
  · have hw : stepCreate w r = w := by
      simp only [stepCreate, hm]
    rw [hw]
    exact ⟨h1, h2⟩
  · rcases hc : m.createData w.dataCount r.name r.dimension with e | p
    · have hw : stepCreate w r = w := by
        simp only [stepCreate, hm, hc]
      rw [hw]
      exact ⟨h1, h2⟩
    · obtain ⟨m2, c2⟩ := p
      obtain ⟨hdata, hc2, _⟩ :=
        createData_ok m w.dataCount r.name r.dimension m2 c2 hc
      have hw : stepCreate w r
          = { meshes := w.meshes.set r.meshIdx m2, dataCount := c2 } := by
        simp only [stepCreate, hm, hc]
      have hids : m2.dataIDs
          = m.dataIDs ++ [Int.ofNat w.dataCount] := by
        rw [Mesh.dataIDs, hdata, List.map_append, Mesh.dataIDs]
        rfl
      have hget : (w.meshes.map Mesh.dataIDs)[r.meshIdx]?
          = some m.dataIDs := by
        rw [List.getElem?_map, hm]
        rfl
      have hperm : List.Perm
          (allDataIDs { meshes := w.meshes.set r.meshIdx m2,
                        dataCount := c2 })
          (Int.ofNat w.dataCount :: allDataIDs w) := by
        show List.Perm (((w.meshes.set r.meshIdx m2).map Mesh.dataIDs).flatten) _
        rw [List.map_set, hids]
        exact flatten_set_perm (w.meshes.map Mesh.dataIDs) r.meshIdx
          m.dataIDs (Int.ofNat w.dataCount) hget
      rw [hw]
      constructor
      · intro i hi
        have hmem := hperm.mem_iff.mp hi
        have hcast : ((c2 : Nat) : Int) = (w.dataCount : Int) + 1 := by
          rw [hc2]
          push_cast
          ring
        rcases List.mem_cons.mp hmem with h0 | hrest
        · subst h0
          rw [hcast]
          simp only [Int.ofNat_eq_coe]
          omega
        · have := h1 i hrest
          rw [hcast]
          omega
      · rw [hperm.nodup_iff]
        refine List.nodup_cons.mpr ⟨?_, h2⟩
        intro hmem
        have := h1 _ hmem
        simp only [Int.ofNat_eq_coe] at this
        omega

/-- C3: along any sequence of `Mesh::createData` calls against any world of
meshes whose existing data ids are distinct and below the global data
counter, every created data field receives an id distinct from all others —
data ids stay globally unique across all meshes. -/
theorem createData_ids_globally_unique (w : DataWorld)
    (rs : List CreateReq)
    (h1 : ∀ i ∈ allDataIDs w, i < (w.dataCount : Int))
    (h2 : (allDataIDs w).Nodup) :
    (allDataIDs (runCreates w rs)).Nodup ∧
    ∀ i ∈ allDataIDs (runCreates w rs),
      i < ((runCreates w rs).dataCount : Int) := by
  induction rs generalizing w with
  | nil =>
    exact ⟨h2, h1⟩
  | cons r rs ih =>
    obtain ⟨g1, g2⟩ := stepCreate_inv w r h1 h2
    have := ih (stepCreate w r) g1 g2
    simpa [runCreates, List.foldl_cons] using this

/-- Witness for C3: two successful `createData` calls on a world with one
empty mesh produce distinct ids. -/
theorem createData_ids_globally_unique_witness :
    (∀ i ∈ allDataIDs world0, i < (world0.dataCount : Int)) ∧
    (allDataIDs world0).Nodup ∧
    (allDataIDs (runCreates world0 reqs0)).Nodup :=
  ⟨by decide, by decide,
   (createData_ids_globally_unique world0 reqs0 (by decide) (by decide)).1⟩

/-! ## Helper lemmas on the `addMesh` loops and `createTriangle` -/

theorem getD_map {α β : Type} [Inhabited α] (f : α → β) (l : List α)
    (j : Nat) (d : β) (hj : j < l.length) :
    (l.map f).getD j d = f (l.getD j default) := by
  rw [List.getD_eq_getElem _ _ (by simpa using hj),
    List.getD_eq_getElem _ _ hj, List.getElem_map]

theorem mapFind_zip_reverse {α : Type} [Inhabited α] (ids : List Int)
    (sfx : List α) (k : Int) (w : α)
    (h : mapFind ((ids.zip sfx).reverse) k = some w) :
    ∃ j, j < ids.length ∧ j < sfx.length ∧ ids.getD j 0 = k ∧
      sfx.getD j default = w := by
  rw [mapFind] at h
  rcases hf : ((ids.zip sfx).reverse).find? (fun p => p.1 = k) with _ | p
  · rw [hf] at h
    cases h
  · rw [hf] at h
    injection h with hw
    have hk0 := List.find?_some hf
    have hk : p.1 = k := of_decide_eq_true hk0
    have hmem : p ∈ ids.zip sfx :=
      List.mem_reverse.mp (List.mem_of_find?_eq_some hf)
    obtain ⟨j, hj, hjeq⟩ := List.mem_iff_getElem.mp hmem
    have hj1 : j < ids.length := by
      have := List.length_zip ids sfx
      omega
    have hj2 : j < sfx.length := by
      have := List.length_zip ids sfx
      omega
    rw [List.getElem_zip] at hjeq
    refine ⟨j, hj1, hj2, ?_, ?_⟩
    · rw [List.getD_eq_getElem _ _ hj1]
      rw [show ids[j] = p.1 from congrArg Prod.fst hjeq]
      exact hk
    · rw [List.getD_eq_getElem _ _ hj2]
      rw [show sfx[j] = p.2 from congrArg Prod.snd hjeq]
      exact hw

theorem createTriangle_ok (m : Mesh) (ea eb ec : Edge) (m2 : Mesh)
    (t : Triangle) (h : m.createTriangle ea eb ec = .ok (m2, t)) :
    m2.triangles = m.triangles ++ [t] ∧ m2.vertices = m.vertices ∧
    m2.edges = m.edges ∧ m2.quads = m.quads ∧
    m2.dimensions = m.dimensions ∧
    t.e0 = ea ∧ t.e1 = eb ∧ t.e2 = ec := by
  rw [Mesh.createTriangle] at h
  split at h
  · injection h with hp
    injection hp with h1 h2
    subst h1
    subst h2
    exact ⟨rfl, rfl, rfl, rfl, rfl, rfl, rfl, rfl⟩
  · cases h

theorem addVerticesLoop_spec : ∀ (vs : List Vertex) (m : Mesh)
    (vm : List (Int × Vertex)) (m2 : Mesh) (vm2 : List (Int × Vertex)),
    addVerticesLoop m vm vs = some (m2, vm2) →
    (∃ suffix : List Vertex, m2.vertices = m.vertices ++ suffix ∧
      suffix.length = vs.length ∧
      (∀ i, i < vs.length →
        (suffix.getD i default).coords = (vs.getD i default).coords ∧
        (suffix.getD i default).globalIndex
          = (vs.getD i default).globalIndex ∧
        (suffix.getD i default).owner = (vs.getD i default).owner ∧
        (suffix.getD i default).tagged = (vs.getD i default).tagged) ∧
      vm2 = ((vs.map Vertex.id).zip suffix).reverse ++ vm) ∧
    m2.edges = m.edges ∧ m2.triangles = m.triangles ∧
    m2.quads = m.quads ∧ m2.dimensions = m.dimensions := by
  intro vs
  induction vs with
  | nil =>
    intro m vm m2 vm2 h
    simp only [addVerticesLoop] at h
    cases h
    refine ⟨⟨[], by simp, rfl, ?_, by simp⟩, rfl, rfl, rfl, rfl⟩
    intro i hi
    cases hi
  | cons v vs ih =>
    intro m vm m2 vm2 h
    simp only [addVerticesLoop, Mesh.createVertex] at h
    split at h
    · cases h
    · obtain ⟨⟨s2, hvert, hlen, hidx, hvm⟩, hedge, htri, hquad, hdim⟩ :=
        ih _ _ _ _ h
      refine ⟨⟨{ id := Int.ofNat m.vertexIDCounter, coords := v.coords,
                 globalIndex := v.globalIndex, owner := v.owner,
                 tagged := v.tagged, normal := [] } :: s2, ?_, ?_, ?_, ?_⟩,
              hedge, htri, hquad, hdim⟩
      · rw [hvert]
        simp
      · simp [hlen]
      · intro i hi
        cases i with
        | zero =>
          exact ⟨rfl, rfl, rfl, rfl⟩
        | succ n =>
          have hn : n < vs.length := by
            simpa using hi
          simpa using hidx n hn
      · rw [hvm, List.map_cons, List.zip_cons_cons, List.reverse_cons,
          List.append_assoc]
        rfl

theorem addEdgesLoop_spec : ∀ (es : List Edge) (m : Mesh)
    (vm : List (Int × Vertex)) (em : List (Int × Edge)) (m2 : Mesh)
    (em2 : List (Int × Edge)),
    addEdgesLoop m vm em es = some (m2, em2) →
    (∃ esuffix : List Edge, m2.edges = m.edges ++ esuffix ∧
      esuffix.length = es.length ∧
      (∀ i, i < es.length →
        mapFind vm ((es.getD i default).v0.id)
          = some ((esuffix.getD i default).v0) ∧
        mapFind vm ((es.getD i default).v1.id)
          = some ((esuffix.getD i default).v1)) ∧
      em2 = ((es.map Edge.id).zip esuffix).reverse ++ em) ∧
    m2.vertices = m.vertices ∧ m2.triangles = m.triangles ∧
    m2.quads = m.quads ∧ m2.dimensions = m.dimensions := by
  intro es
  induction es with
  | nil =>
    intro m vm em m2 em2 h
    simp only [addEdgesLoop] at h
    cases h
    refine ⟨⟨[], by simp, rfl, ?_, by simp⟩, rfl, rfl, rfl, rfl⟩
    intro i hi
    cases hi
  | cons e es ih =>
    intro m vm em m2 em2 h
    simp only [addEdgesLoop, Mesh.createEdge] at h
    split at h
    · rename_i a b heq1 heq2
      obtain ⟨⟨s2, hedge, hlen, hidx, hem⟩, hvert, htri, hquad, hdim⟩ :=
        ih _ _ _ _ _ h
      refine ⟨⟨{ v0 := a, v1 := b, id := Int.ofNat m.edgeIDCounter } :: s2,
               ?_, ?_, ?_, ?_⟩, hvert, htri, hquad, hdim⟩
      · rw [hedge]
        simp
      · simp [hlen]
      · intro i hi
        cases i with
        | zero =>
          exact ⟨heq1, heq2⟩
        | succ n =>
          have hn : n < es.length := by
            simpa using hi
          simpa using hidx n hn
      · rw [hem, List.map_cons, List.zip_cons_cons, List.reverse_cons,
          List.append_assoc]
        rfl
    · cases h

theorem addTrianglesLoop_spec : ∀ (ts : List Triangle) (m : Mesh)
    (em : List (Int × Edge)) (m2 : Mesh),
    addTrianglesLoop m em ts = some m2 →
    (∃ tsuffix : List Triangle, m2.triangles = m.triangles ++ tsuffix ∧
      tsuffix.length = ts.length ∧
      ∀ i, i < ts.length →
        mapFind em ((ts.getD i default).e0.id)
          = some ((tsuffix.getD i default).e0) ∧
        mapFind em ((ts.getD i default).e1.id)
          = some ((tsuffix.getD i default).e1) ∧
        mapFind em ((ts.getD i default).e2.id)
          = some ((tsuffix.getD i default).e2)) ∧
    m2.vertices = m.vertices ∧ m2.edges = m.edges ∧
    m2.quads = m.quads ∧ m2.dimensions = m.dimensions := by
  intro ts
  induction ts with
  | nil =>
    intro m em m2 h
    simp only [addTrianglesLoop] at h
    cases h
    refine ⟨⟨[], by simp, rfl, ?_⟩, rfl, rfl, rfl, rfl⟩
    intro i hi
    cases hi
  | cons t ts ih =>
    intro m em m2 h
    simp only [addTrianglesLoop] at h
    split at h
    · rename_i a b c heq1 heq2 heq3
      split at h
      · rename_i mX tX hok
        obtain ⟨htri, hvert, hedge, hquad, hdim, he0, he1, he2⟩ :=
          createTriangle_ok m a b c mX tX hok
        obtain ⟨⟨s2, htri2, hlen2, hidx2⟩, hvert2, hedge2, hquad2, hdim2⟩ :=
          ih _ _ _ h
        refine ⟨⟨tX :: s2, ?_, ?_, ?_⟩, hvert2.trans hvert,
                hedge2.trans hedge, hquad2.trans hquad, hdim2.trans hdim⟩
        · rw [htri2, htri]
          simp
        · simp [hlen2]
        · intro i hi
          cases i with
          | zero =>
            refine ⟨?_, ?_, ?_⟩
            · rw [show ((tX :: s2).getD 0 default).e0 = tX.e0 from rfl, he0]
              exact heq1
            · rw [show ((tX :: s2).getD 0 default).e1 = tX.e1 from rfl, he1]
              exact heq2
            · rw [show ((tX :: s2).getD 0 default).e2 = tX.e2 from rfl, he2]
              exact heq3
          | succ n =>
            have hn : n < ts.length := by
              simpa using hi
            simpa using hidx2 n hn
      · cases h
    · cases h

/-! ## C10 — `addMesh` copies vertices, edges and 3D triangles, never quads -/

/-- C10: `Mesh::addMesh` requires equal dimensionality and, on success,
appends one copy of every vertex of the delta mesh — preserving
coordinates, global index, owner flag and tagged flag — and one copy of
every edge, each new edge connecting the new vertices that correspond (by
delta-vertex id) to the delta edge's endpoints; triangles are copied only
when the mesh is 3-dimensional, each new triangle referencing the new
edges that correspond (by delta-edge id) to the delta triangle's edges;
quads are never copied: the receiving mesh's quad container is unchanged
even when the delta mesh contains quads. -/
theorem addMesh_copies (m delta m2 : Mesh) (h : m.addMesh delta = some m2) :
    m.dimensions = delta.dimensions ∧
    m2.quads = m.quads ∧
    ∃ suffix : List Vertex, ∃ esuffix : List Edge,
      m2.vertices = m.vertices ++ suffix ∧
      suffix.length = delta.vertices.length ∧
      (∀ i, i < delta.vertices.length →
        (suffix.getD i default).coords
          = (delta.vertices.getD i default).coords ∧
        (suffix.getD i default).globalIndex
          = (delta.vertices.getD i default).globalIndex ∧
        (suffix.getD i default).owner
          = (delta.vertices.getD i default).owner ∧
        (suffix.getD i default).tagged
          = (delta.vertices.getD i default).tagged) ∧
      m2.edges = m.edges ++ esuffix ∧
      esuffix.length = delta.edges.length ∧
      (∀ i, i < delta.edges.length →
        (∃ j, j < delta.vertices.length ∧
          (delta.vertices.getD j default).id
            = (delta.edges.getD i default).v0.id ∧
          (esuffix.getD i default).v0 = suffix.getD j default) ∧
        (∃ j, j < delta.vertices.length ∧
          (delta.vertices.getD j default).id
            = (delta.edges.getD i default).v1.id ∧
          (esuffix.getD i default).v1 = suffix.getD j default)) ∧
      (m.dimensions = 3 →
        ∃ tsuffix : List Triangle,
          m2.triangles = m.triangles ++ tsuffix ∧
          tsuffix.length = delta.triangles.length ∧
          ∀ i, i < delta.triangles.length →
            (∃ j, j < delta.edges.length ∧
              (delta.edges.getD j default).id
                = (delta.triangles.getD i default).e0.id ∧
              (tsuffix.getD i default).e0 = esuffix.getD j default) ∧
            (∃ j, j < delta.edges.length ∧
              (delta.edges.getD j default).id
                = (delta.triangles.getD i default).e1.id ∧
              (tsuffix.getD i default).e1 = esuffix.getD j default) ∧
            (∃ j, j < delta.edges.length ∧
              (delta.edges.getD j default).id
                = (delta.triangles.getD i default).e2.id ∧
              (tsuffix.getD i default).e2 = esuffix.getD j default)) ∧
      (¬ m.dimensions = 3 → m2.triangles = m.triangles) := by
  rw [Mesh.addMesh] at h
  split at h
  case isFalse => cases h
  case isTrue hdim =>
    split at h
    case h_1 => cases h
    case h_2 m1 vm hv =>
      obtain ⟨⟨suffix, hvert, hlen, hidx, hvm⟩, hedge1, htri1, hquad1,
              hdim1⟩ := addVerticesLoop_spec delta.vertices m [] m1 vm hv
      rw [List.append_nil] at hvm
      split at h
      case h_1 => cases h
      case h_2 mE em he =>
        obtain ⟨⟨esuffix, heedge, helen, heidx, hem⟩, hevert, hetri,
                hequad, hedim⟩ := addEdgesLoop_spec delta.edges m1 vm [] mE em he
        rw [List.append_nil] at hem
        have hvcopy : ∀ i, i < delta.edges.length →
            (∃ j, j < delta.vertices.length ∧
              (delta.vertices.getD j default).id
                = (delta.edges.getD i default).v0.id ∧
              (esuffix.getD i default).v0 = suffix.getD j default) ∧
            (∃ j, j < delta.vertices.length ∧
              (delta.vertices.getD j default).id
                = (delta.edges.getD i default).v1.id ∧
              (esuffix.getD i default).v1 = suffix.getD j default) := by
          intro i hi
          obtain ⟨hf0, hf1⟩ := heidx i hi
          rw [hvm] at hf0 hf1
          constructor
          · obtain ⟨j, hj1, hj2, hid, hval⟩ :=
              mapFind_zip_reverse (delta.vertices.map Vertex.id) suffix
                ((delta.edges.getD i default).v0.id)
                ((esuffix.getD i default).v0) hf0
            have hjv : j < delta.vertices.length := by
              simpa using hj1
            refine ⟨j, hjv, ?_, hval.symm⟩
            rw [getD_map Vertex.id delta.vertices j 0 hjv] at hid
            exact hid
          · obtain ⟨j, hj1, hj2, hid, hval⟩ :=
              mapFind_zip_reverse (delta.vertices.map Vertex.id) suffix
                ((delta.edges.getD i default).v1.id)
                ((esuffix.getD i default).v1) hf1
            have hjv : j < delta.vertices.length := by
              simpa using hj1
            refine ⟨j, hjv, ?_, hval.symm⟩
            rw [getD_map Vertex.id delta.vertices j 0 hjv] at hid
            exact hid
        split at h
        case isTrue h3 =>
          obtain ⟨⟨tsuffix, httri, htlen, htidx⟩, htvert, htedge, htquad,
                  htdim⟩ := addTrianglesLoop_spec delta.triangles mE em m2 h
          refine ⟨hdim, by rw [htquad, hequad, hquad1], suffix, esuffix,
                  by rw [htvert, hevert, hvert], hlen, hidx,
                  by rw [htedge, heedge, hedge1], helen, hvcopy, ?_, ?_⟩
          · intro _
            refine ⟨tsuffix, by rw [httri, hetri, htri1], htlen, ?_⟩
            intro i hi
            obtain ⟨hf0, hf1, hf2⟩ := htidx i hi
            rw [hem] at hf0 hf1 hf2
            refine ⟨?_, ?_, ?_⟩
            · obtain ⟨j, hj1, hj2, hid, hval⟩ :=
                mapFind_zip_reverse (delta.edges.map Edge.id) esuffix
                  ((delta.triangles.getD i default).e0.id)
                  ((tsuffix.getD i default).e0) hf0
              have hje : j < delta.edges.length := by
                simpa using hj1
              refine ⟨j, hje, ?_, hval.symm⟩
              rw [getD_map Edge.id delta.edges j 0 hje] at hid
              exact hid
            · obtain ⟨j, hj1, hj2, hid, hval⟩ :=
                mapFind_zip_reverse (delta.edges.map Edge.id) esuffix
                  ((delta.triangles.getD i default).e1.id)
                  ((tsuffix.getD i default).e1) hf1
              have hje : j < delta.edges.length := by
                simpa using hj1
              refine ⟨j, hje, ?_, hval.symm⟩
              rw [getD_map Edge.id delta.edges j 0 hje] at hid
              exact hid
            · obtain ⟨j, hj1, hj2, hid, hval⟩ :=
                mapFind_zip_reverse (delta.edges.map Edge.id) esuffix
                  ((delta.triangles.getD i default).e2.id)
                  ((tsuffix.getD i default).e2) hf2
              have hje : j < delta.edges.length := by
                simpa using hj1
              refine ⟨j, hje, ?_, hval.symm⟩
              rw [getD_map Edge.id delta.edges j 0 hje] at hid
              exact hid
          · intro hnot3
            exact absurd h3 hnot3
        case isFalse h3 =>
          injection h with h2
          subst h2
          refine ⟨hdim, by rw [hequad, hquad1], suffix, esuffix,
                  by rw [hevert, hvert], hlen, hidx,
                  by rw [heedge, hedge1], helen, hvcopy, ?_, ?_⟩
          · intro h3c
            exact absurd h3c h3
          · intro _
            rw [hetri, htri1]

/-- Witness for C10: `addBase` (3D, one quad) absorbs `addDelta` (three
vertices, three edges, one triangle, one quad); the quad container of the
result equals that of `addBase` and the edge count adds up. -/
theorem addMesh_copies_witness :
    addResult.quads = addBase.quads ∧
    addResult.edges.length = addBase.edges.length + addDelta.edges.length := by
  obtain ⟨hd, hq, suffix, esuffix, hv, hvl, hvi, he, hel, hcopy, ht, hnt⟩ :=
    addMesh_copies addBase addDelta addResult rfl
  refine ⟨hq, ?_⟩
  rw [he, List.length_append, hel]

/-! ## C5 — dimensionality is 2 or 3 and never changes -/

theorem computeState_dims (en : Edge → Bool → List ℚ)
    (tn : Triangle → Bool → List ℚ) (qn : Quad → Bool → List ℚ)
    (tv : Triangle → Nat → Vertex) (qv : Quad → Nat → Vertex)
    (nz : List ℚ → List ℚ) (m m2 : Mesh)
    (h : Mesh.computeState en tn qn tv qv nz m = some m2) :
    m2.dimensions = m.dimensions := by
  rw [Mesh.computeState] at h
  simp only [] at h
  split at h
  · cases h
  · split at h
    · injection h with h1
      subst h1
      rfl
    · split at h
      · injection h with h1
        subst h1
        rfl
      · split at h
        · injection h with h1
          subst h1
          rfl
        · split at h
          · cases h
          · split at h
            · cases h
            · injection h with h1
              subst h1
              rfl

/-- C5: a mesh is only constructed with dimensionality 2 or 3 — any other
value fails the constructor's assertion — and `getDimensions` is invariant
under every mesh operation: `createVertex`, `createEdge`,
`createUniqueEdge`, `createTriangle`, `createQuad`, `createData`,
`allocateDataValues`, `clear`, `computeBoundingBox`, `addMesh` and
`computeState` all leave it unchanged. -/
theorem mesh_dimensions_invariant :
    (∀ name dims flip id m, Mesh.make name dims flip id = some m →
      (m.dimensions = 2 ∨ m.dimensions = 3)) ∧
    (∀ name dims flip id, dims ≠ 2 → dims ≠ 3 →
      Mesh.make name dims flip id = none) ∧
    (∀ (m : Mesh) cs, ((m.createVertex cs).1).dimensions = m.dimensions) ∧
    (∀ (m : Mesh) va vb,
      ((m.createEdge va vb).1).dimensions = m.dimensions) ∧
    (∀ (m : Mesh) va vb,
      ((m.createUniqueEdge va vb).1).dimensions = m.dimensions) ∧
    (∀ (m : Mesh) ea eb ec m2 t, m.createTriangle ea eb ec = .ok (m2, t) →
      m2.dimensions = m.dimensions) ∧
    (∀ (m : Mesh) ea eb ec ed,
      ((m.createQuad ea eb ec ed).1).dimensions = m.dimensions) ∧
    (∀ (m : Mesh) count nm dim m2 c2,
      m.createData count nm dim = .ok (m2, c2) →
      m2.dimensions = m.dimensions) ∧
    (∀ m : Mesh, (m.allocateDataValues).dimensions = m.dimensions) ∧
    (∀ m : Mesh, (m.clear).dimensions = m.dimensions) ∧
    (∀ m : Mesh, (m.computeBoundingBox).dimensions = m.dimensions) ∧
    (∀ (m : Mesh) delta m2, m.addMesh delta = some m2 →
      m2.dimensions = m.dimensions) ∧
    (∀ en tn qn tv qv nz m m2,
      Mesh.computeState en tn qn tv qv nz m = some m2 →
      m2.dimensions = m.dimensions) := by
  refine ⟨?_, ?_, ?_, ?_, ?_, ?_, ?_, ?_, ?_, ?_, ?_, ?_, ?_⟩
  · intro name dims flip id m h
    rw [Mesh.make] at h
    split at h
    · rename_i hcond
      injection h with h1
      subst h1
      exact hcond.1
    · cases h
  · intro name dims flip id h2 h3
    rw [Mesh.make]
    apply if_neg
    rintro ⟨h24 | h34, _⟩
    · exact h2 h24
    · exact h3 h34
  · intro m cs
    rfl
  · intro m va vb
    rfl
  · intro m va vb
    rw [Mesh.createUniqueEdge]
    cases m.edges.find? (edgeHasVertexIDs va.id vb.id) <;> rfl
  · intro m ea eb ec m2 t h
    exact (createTriangle_ok m ea eb ec m2 t h).2.2.2.2.1
  · intro m ea eb ec ed
    rfl
  · intro m count nm dim m2 c2 h
    exact (createData_ok m count nm dim m2 c2 h).2.2
  · intro m
    rfl
  · intro m
    rfl
  · intro m
    rfl
  · intro m delta m2 h
    rw [Mesh.addMesh] at h
    split at h
    case isFalse => cases h
    case isTrue hdim =>
      split at h
      case h_1 => cases h
      case h_2 m1 vm hv =>
        have hd1 := (addVerticesLoop_spec delta.vertices m [] m1 vm hv).2.2.2.2
        split at h
        case h_1 => cases h
        case h_2 mE em he =>
          have hd2 := (addEdgesLoop_spec delta.edges m1 vm [] mE em he).2.2.2.2
          split at h
          case isTrue h3 =>
            have hd3 :=
              (addTrianglesLoop_spec delta.triangles mE em m2 h).2.2.2.2
            rw [hd3, hd2, hd1]
          case isFalse h3 =>
            injection h with h1
            subst h1
            rw [hd2, hd1]
  · intro en tn qn tv qv nz m m2 h
    exact computeState_dims en tn qn tv qv nz m m2 h

/-- Witness for C5: concrete instances of every guarded conjunct — a
successful and a failing construction, a `createTriangle`, a `createData`,
an `addMesh` and a `computeState` call. -/
theorem mesh_dimensions_invariant_witness :
    (madeMesh.dimensions = 2 ∨ madeMesh.dimensions = 3) ∧
    Mesh.make "a" 5 false 0 = none ∧
    triMesh.dimensions = sampleMesh3.dimensions ∧
    dataMesh.dimensions = sampleMesh3.dimensions ∧
    addResult.dimensions = addBase.dimensions ∧
    sampleMesh2.dimensions = sampleMesh2.dimensions :=
  ⟨mesh_dimensions_invariant.1 "a" 2 false 0 madeMesh rfl,
   mesh_dimensions_invariant.2.1 "a" 5 false 0 (by decide) (by decide),
   mesh_dimensions_invariant.2.2.2.2.2.1 sampleMesh3 eAB eBC eCA triMesh
     triNew rfl,
   mesh_dimensions_invariant.2.2.2.2.2.2.2.1 sampleMesh3 0 "a" 1 dataMesh
     1 rfl,
   mesh_dimensions_invariant.2.2.2.2.2.2.2.2.2.2.2.1 addBase addDelta
     addResult rfl,
   mesh_dimensions_invariant.2.2.2.2.2.2.2.2.2.2.2.2
     (fun _ _ => []) (fun _ _ => []) (fun _ _ => []) (fun _ _ => vA)
     (fun _ _ => vA) (fun n => n) sampleMesh2 sampleMesh2 rfl⟩

end Precice
